import Mathlib

/-!
Verification development for the media-upload bot (`src/bot.py`).

The core of the program is a FIFO upload queue (`upload_queue`, a deque of
item dicts), a single boolean flag `is_processing`, a drain coroutine
`process_queue` that pops items one at a time, a global `stats` dict, and the
handlers `handle_media`, `show_stats` and `clear_queue`.

The embedding below is a shallow one:

* `Item` is the queue-item record built by `handle_media` (lines 189-197).
* External collaborators (Telegram `send_message` / `get_file` + download,
  and `GoogleDriveUploader.upload_file`) are modelled by a per-item
  `Behavior` record that fixes what each collaborator call does when the
  drain loop reaches it: `none` means the awaited call returns normally,
  `some e` means it raises an exception with message `e`.  `upload_file`
  never raises (it catches `HttpError` and `Exception` internally,
  lines 91-102) and instead returns a typed `UploadResult`.
* `processItem` is the body of the `while upload_queue:` loop of
  `process_queue` (lines 223-287) for one popped item: the `try` block,
  the stats updates, and the `except` handler.  Its result records the
  updated stats, the messages actually delivered, whether the Telegram
  download (`get_file`) and the Drive upload were invoked, and whether an
  exception escaped the `except` handler (which would kill the coroutine).
* `Sys`/`Ev`/`stepEv` form a small-step event system for the asyncio
  interleavings: appending an item, the deferred `is_processing` check of
  `handle_media` (lines 208-210), a created `process_queue` task reaching
  its guard (lines 216-219), one iteration of the drain loop, and the
  `show_stats` / `clear_queue` command handlers.  `activeLoops` counts the
  drain loops that passed the guard and have not yet finished, so that the
  single-flight property is provable rather than built in.
-/

namespace UploadBot

/-- One entry of `upload_queue` as built by `handle_media` (lines 189-197).
`fileId` stands for the opaque `file_obj`, `chatId`/`messageId` identify the
originating conversation message. -/
structure Item where
  fileId : Nat
  filename : String
  mimeType : String
  chatId : Int
  messageId : Nat
deriving DecidableEq

/-- Result dict returned by `GoogleDriveUploader.upload_file`
(lines 83-102): either `success: True` with id/name/link/size, or
`success: False` with an error string.  The method catches its own
exceptions, so it always returns one of these. -/
inductive UploadResult where
  | success (name link : String) (size : Nat)
  | failure (error : String)
deriving DecidableEq

/-- Environment behaviour for one item's trip through the drain-loop body:
what each awaited collaborator call does when (and if) it is reached.
`none` = the call returns normally; `some e` = the call raises an exception
whose string form is `e`. -/
structure Behavior where
  startNotify : Option String
  fetch : Option String
  upload : UploadResult
  outcomeNotify : Option String
  errorNotify : Option String
deriving DecidableEq

/-- The global `stats` dict (lines 40-45). `total_size_mb` is kept as an
exact rational; every update the code performs on it (adding
`size / (1024*1024)`) is exact in binary floating point for the sizes we
reason about, and the claims at issue are about which divisor is used. -/
structure Stats where
  total_uploads : Nat
  successful_uploads : Nat
  failed_uploads : Nat
  total_size_mb : ℚ
deriving DecidableEq

/-- Initial value of `stats` (lines 40-45). -/
def initStats : Stats := ⟨0, 0, 0, 0⟩

/-- A message actually delivered to a chat by one of the handlers. -/
inductive Notif where
  | queuedAck (chatId : Int) (position : Nat)
  | started (chatId : Int) (messageId : Nat) (filename : String)
  | uploadSuccess (chatId : Int) (messageId : Nat) (name link : String) (size : Nat)
  | uploadFailed (chatId : Int) (messageId : Nat) (error : String)
  | errorMsg (chatId : Int) (messageId : Nat) (error : String)
  | cleared (count : Nat)
  | statsReport (total succ failed : Nat) (sizeMb rate : ℚ) (queueLen : Nat)
deriving DecidableEq

/-- Outcome of running the drain-loop body on one item. -/
structure ItemResult where
  stats : Stats
  notifs : List Notif
  fetchInvoked : Bool
  uploadInvoked : Bool
  aborted : Bool
deriving DecidableEq

/-- The `except Exception as e:` handler of `process_queue` (lines 277-284):
increments `failed_uploads` only, then sends the error message; if that
`send_message` itself raises, the exception escapes `process_queue`
(`aborted := true`) and no message is delivered. -/
def exceptHandler (s : Stats) (it : Item) (e : String) (errorNotify : Option String)
    (ns : List Notif) (fI uI : Bool) : ItemResult :=
  let s' : Stats := { s with failed_uploads := s.failed_uploads + 1 }
  match errorNotify with
  | none => ⟨s', ns ++ [Notif.errorMsg it.chatId it.messageId e], fI, uI, false⟩
  | some _ => ⟨s', ns, fI, uI, true⟩

/-- One iteration of the `while upload_queue:` body of `process_queue`
(lines 225-284) for the popped item `it`, under environment behaviour `b`:
the "Uploading..." notification, the Telegram download, the Drive upload,
the stats update (`total_uploads` is bumped only at line 249, after the
upload call returns), the outcome notification, with any escaped exception
routed to `exceptHandler`. -/
def processItem (s : Stats) (it : Item) (b : Behavior) : ItemResult :=
  match b.startNotify with
  | some e => exceptHandler s it e b.errorNotify [] false false
  | none =>
    let ns := [Notif.started it.chatId it.messageId it.filename]
    match b.fetch with
    | some e => exceptHandler s it e b.errorNotify ns true false
    | none =>
      let s1 : Stats := { s with total_uploads := s.total_uploads + 1 }
      match b.upload with
      | UploadResult.success name link size =>
        let s2 : Stats :=
          { s1 with successful_uploads := s1.successful_uploads + 1,
                    total_size_mb := s1.total_size_mb + (size : ℚ) / (1024 * 1024) }
        match b.outcomeNotify with
        | none =>
          ⟨s2, ns ++ [Notif.uploadSuccess it.chatId it.messageId name link size],
            true, true, false⟩
        | some e => exceptHandler s2 it e b.errorNotify ns true true
      | UploadResult.failure err =>
        let s2 : Stats := { s1 with failed_uploads := s1.failed_uploads + 1 }
        match b.outcomeNotify with
        | none =>
          ⟨s2, ns ++ [Notif.uploadFailed it.chatId it.messageId err], true, true, false⟩
        | some e => exceptHandler s2 it e b.errorNotify ns true true

/-- Holds exactly when, under behaviour `b`, some awaited call inside the
`try` block raises, i.e. control enters the `except` handler
("steps 2-8 raise" in the spec's numbering). -/
def raisesDuringItem (b : Behavior) : Bool :=
  b.startNotify.isSome || b.fetch.isSome || b.outcomeNotify.isSome

/-- Constant `ADMIN_USER_IDS` (line 31). -/
def ADMIN_USER_IDS : List Int := [8285783077]

/-- Predicate `is_admin` (lines 107-109). -/
def is_admin (user_id : Int) : Bool := ADMIN_USER_IDS.contains user_id

/-- The `success_rate` computation of `show_stats` (lines 310-312):
`(successful_uploads / total_uploads) * 100` when `total_uploads > 0`,
else `0`. -/
def successRate (s : Stats) : ℚ :=
  if s.total_uploads > 0 then
    ((s.successful_uploads : ℚ) / (s.total_uploads : ℚ)) * 100
  else 0

/-- Global state of the event system: the queue (each pending item paired
with the environment behaviour its processing will encounter), the
`is_processing` flag, the number of created-but-not-yet-started
`process_queue` tasks, the number of drain loops past the guard and not yet
finished, the stats, the delivered messages, and ghost history fields
(`enqueuedOrder`, `processedOrder`, `loopStarts`, `loopEnds`). -/
structure Sys where
  queue : List (Item × Behavior)
  isProcessing : Bool
  pending : Nat
  activeLoops : Nat
  stats : Stats
  notifs : List Notif
  enqueuedOrder : List Item
  processedOrder : List (Item × Behavior)
  loopStarts : Nat
  loopEnds : Nat
deriving DecidableEq

/-- Process start: empty queue, `is_processing = False`, zeroed stats. -/
def initSys : Sys := ⟨[], false, 0, 0, initStats, [], [], [], 0, 0⟩

/-- Handler `handle_media`, append part (lines 189-206): append the item and reply
with the queue position (the length after appending). -/
def handle_media_append (s : Sys) (it : Item) (b : Behavior) : Sys :=
  { s with queue := s.queue ++ [(it, b)],
           enqueuedOrder := s.enqueuedOrder ++ [it],
           notifs := s.notifs ++ [Notif.queuedAck it.chatId (s.queue.length + 1)] }

/-- Handler `handle_media`, spawn part (lines 208-210): after the (awaited) reply,
check `is_processing`; if it is `False`, create a `process_queue` task. -/
def handle_media_check (s : Sys) : Sys :=
  if s.isProcessing then s else { s with pending := s.pending + 1 }

/-- A created `process_queue` task starts running and reaches its guard
(lines 216-219): if `is_processing` is already `True` it returns at once;
otherwise it sets the flag and becomes the active drain loop. -/
def process_queue_start (s : Sys) : Sys :=
  if s.pending = 0 then s
  else if s.isProcessing then { s with pending := s.pending - 1 }
  else
    { s with pending := s.pending - 1, isProcessing := true,
             activeLoops := s.activeLoops + 1, loopStarts := s.loopStarts + 1 }

/-- One `while upload_queue:` check of the active drain loop
(lines 222-290): with an empty queue the loop exits and resets
`is_processing` (line 289); otherwise it pops the head item and runs the
loop body on it.  If an exception escapes the `except` handler the
coroutine dies there, *without* resetting `is_processing`. -/
def process_queue_drain (s : Sys) : Sys :=
  if s.activeLoops = 0 then s
  else
    match s.queue with
    | [] =>
      { s with isProcessing := false, activeLoops := s.activeLoops - 1,
               loopEnds := s.loopEnds + 1 }
    | (it, b) :: rest =>
      let r := processItem s.stats it b
      { s with queue := rest, stats := r.stats, notifs := s.notifs ++ r.notifs,
               processedOrder := s.processedOrder ++ [(it, b)],
               activeLoops := if r.aborted then s.activeLoops - 1 else s.activeLoops }

/-- Handler `show_stats` (lines 308-324): reads the counters, derives the success
rate, reports them together with the queue length; mutates nothing. -/
def show_stats (s : Sys) : Sys :=
  { s with notifs := s.notifs ++
      [Notif.statsReport s.stats.total_uploads s.stats.successful_uploads
        s.stats.failed_uploads s.stats.total_size_mb (successRate s.stats)
        s.queue.length] }

/-- Handler `clear_queue` (lines 341-349): admin-only; records the queue length,
clears the queue, and reports the count removed. -/
def clear_queue (s : Sys) (user_id : Int) : Sys :=
  if is_admin user_id then
    { s with queue := [], notifs := s.notifs ++ [Notif.cleared s.queue.length] }
  else s

/-- Scheduler events: the interleavable atomic sections of the handlers. -/
inductive Ev where
  | enqAppend (it : Item) (b : Behavior)
  | enqCheck
  | runTask
  | drain
  | statsCmd
  | clearCmd (user_id : Int)
deriving DecidableEq

/-- Dispatch one event. -/
def stepEv (s : Sys) : Ev → Sys
  | Ev.enqAppend it b => handle_media_append s it b
  | Ev.enqCheck => handle_media_check s
  | Ev.runTask => process_queue_start s
  | Ev.drain => process_queue_drain s
  | Ev.statsCmd => show_stats s
  | Ev.clearCmd uid => clear_queue s uid

/-- Run an event sequence from process start. -/
def runEvs (evs : List Ev) : Sys := evs.foldl stepEv initSys

/-- Items used by concrete evaluations of the model. -/
def itA : Item := ⟨1, "a.txt", "text/plain", 10, 100⟩

/-- Second concrete item. -/
def itB : Item := ⟨2, "b.mp4", "video/mp4", 11, 101⟩

/-- Third concrete item. -/
def itC : Item := ⟨3, "c.pdf", "application/pdf", 12, 102⟩

/-- Benign behaviour: every notification succeeds, the upload returns a
typed failure (so no rational arithmetic is involved). -/
def bTypedFail : Behavior := ⟨none, none, UploadResult.failure "quota exceeded", none, none⟩

/-- Behaviour whose "started" notification raises while the error-handler
notification succeeds. -/
def bStartRaises : Behavior := ⟨some "net down", none, UploadResult.failure "x", none, none⟩

/-- Behaviour whose "started" notification raises and whose error-handler
notification also raises: the exception escapes `process_queue`. -/
def bDoubleRaise : Behavior := ⟨some "net down", none, UploadResult.failure "x", none, some "flood wait"⟩

/-- Behaviour whose source fetch raises and whose error-handler notification
also raises. -/
def bFetchThenNotifyRaise : Behavior := ⟨none, some "file too big", UploadResult.failure "x", none, some "flood wait"⟩

section Invariants

/-- Single-flight state invariant: never more than one drain loop past the
guard, and an active drain loop implies `is_processing` is set. -/
def SingleFlight (s : Sys) : Prop :=
  s.activeLoops ≤ 1 ∧ (1 ≤ s.activeLoops → s.isProcessing = true)

theorem foldl_preserves (P : Sys → Prop) (hstep : ∀ s e, P s → P (stepEv s e)) :
    ∀ (evs : List Ev) (s : Sys), P s → P (evs.foldl stepEv s) := by
  intro evs
  induction evs with
  | nil => intro s h; exact h
  | cons e evs ih => intro s h; exact ih _ (hstep s e h)

theorem stepEv_singleFlight (s : Sys) (e : Ev) (h : SingleFlight s) :
    SingleFlight (stepEv s e) := by
  obtain ⟨h1, h2⟩ := h
  cases e with
  | enqAppend it b => exact ⟨h1, h2⟩
  | enqCheck =>
    simp only [stepEv, handle_media_check]
    split <;> exact ⟨h1, h2⟩
  | runTask =>
    simp only [stepEv, process_queue_start]
    split
    · exact ⟨h1, h2⟩
    · split
      · exact ⟨h1, h2⟩
      · rename_i hip
        have hz : s.activeLoops = 0 := by
          by_contra hne
          exact hip (h2 (Nat.one_le_iff_ne_zero.mpr hne))
        exact ⟨by simp [hz], fun _ => rfl⟩
  | drain =>
    simp only [stepEv, process_queue_drain]
    split
    · exact ⟨h1, h2⟩
    · rename_i ha
      rcases hq : s.queue with _ | ⟨⟨it, b⟩, rest⟩
      · refine ⟨?_, ?_⟩
        · show s.activeLoops - 1 ≤ 1
          omega
        · intro hcon
          exact absurd (show (1 : ℕ) ≤ s.activeLoops - 1 from hcon) (by omega)
      · refine ⟨?_, fun _ => h2 (Nat.one_le_iff_ne_zero.mpr ha)⟩
        show (if (processItem s.stats it b).aborted = true then s.activeLoops - 1
              else s.activeLoops) ≤ 1
        split <;> omega
  | statsCmd => exact ⟨h1, h2⟩
  | clearCmd uid =>
    simp only [stepEv, clear_queue]
    split <;> exact ⟨h1, h2⟩

theorem initSys_singleFlight : SingleFlight initSys := by
  refine ⟨by simp [initSys], fun h => ?_⟩
  simp [initSys] at h

theorem runEvs_singleFlight (evs : List Ev) : SingleFlight (runEvs evs) :=
  foldl_preserves SingleFlight stepEv_singleFlight evs initSys initSys_singleFlight

end Invariants

/-- Claim C1: at most one drain loop is ever active at a time.  For every
event sequence, the number of drain loops past the `process_queue` guard is
at most 1; while the processor is draining, `handle_media`'s check spawns
nothing at all and an enqueue only appends to the queue (leaving the task
count, the loop-start count and the active-loop count untouched); and a new
drain loop can only exist when `is_processing` is set, so one only ever
starts from an idle observation. -/
theorem spec_c1 (evs : List Ev) :
    (runEvs evs).activeLoops ≤ 1
    ∧ ((runEvs evs).isProcessing = true →
        stepEv (runEvs evs) Ev.enqCheck = runEvs evs
        ∧ ∀ (it : Item) (b : Behavior),
          (stepEv (runEvs evs) (Ev.enqAppend it b)).activeLoops = (runEvs evs).activeLoops
          ∧ (stepEv (runEvs evs) (Ev.enqAppend it b)).pending = (runEvs evs).pending
          ∧ (stepEv (runEvs evs) (Ev.enqAppend it b)).loopStarts = (runEvs evs).loopStarts
          ∧ (stepEv (runEvs evs) (Ev.enqAppend it b)).queue = (runEvs evs).queue ++ [(it, b)])
    ∧ ((runEvs evs).isProcessing = false → (runEvs evs).activeLoops = 0) := by
  obtain ⟨h1, h2⟩ := runEvs_singleFlight evs
  refine ⟨h1, fun hip => ⟨?_, fun it b => ⟨rfl, rfl, rfl, rfl⟩⟩, fun hidle => ?_⟩
  · simp [stepEv, handle_media_check, hip]
  · by_contra hne
    have := h2 (Nat.one_le_iff_ne_zero.mpr hne)
    rw [hidle] at this
    exact Bool.noConfusion this

section Ordering

/-- Classifies the messages that report an item's final outcome to its
conversation: the success message (line 255), the typed-failure message
(line 268) and the `except`-handler error message (line 280).  The enqueue
acknowledgement, the "Uploading..." progress message and the command
replies are not result notifications. -/
def isResultNotif : Notif → Bool
  | Notif.uploadSuccess _ _ _ _ _ => true
  | Notif.uploadFailed _ _ _ => true
  | Notif.errorMsg _ _ _ => true
  | _ => false

/-- The result notifications one item's processing delivers (a singleton,
or empty when the error-handler notification raises).  The messages do not
depend on the stats value, so they are read off at `initStats`. -/
def itemResultNotifs (it : Item) (b : Behavior) : List Notif :=
  (processItem initStats it b).notifs.filter (fun n => isResultNotif n)

theorem processItem_notifs_indep (s s' : Stats) (it : Item) (b : Behavior) :
    (processItem s it b).notifs = (processItem s' it b).notifs := by
  obtain ⟨sn, f, u, o, en⟩ := b
  cases sn <;> cases f <;> cases u <;> cases o <;> cases en <;> rfl

/-- FIFO order invariant: the enqueue history is exactly the processed
history followed by the current queue, and the delivered result
notifications are exactly those of the processed items, in processing
order. -/
def OrderInv (s : Sys) : Prop :=
  s.enqueuedOrder = s.processedOrder.map Prod.fst ++ s.queue.map Prod.fst
  ∧ s.notifs.filter (fun n => isResultNotif n)
      = (s.processedOrder.map (fun p => itemResultNotifs p.1 p.2)).flatten

theorem stepEv_orderInv (s : Sys) (e : Ev)
    (he : ∀ uid : Int, e ≠ Ev.clearCmd uid) (h : OrderInv s) :
    OrderInv (stepEv s e) := by
  obtain ⟨h1, h2⟩ := h
  cases e with
  | enqAppend it b =>
    refine ⟨?_, ?_⟩
    · show s.enqueuedOrder ++ [it]
        = s.processedOrder.map Prod.fst ++ (s.queue ++ [(it, b)]).map Prod.fst
      rw [h1]
      simp
    · show (s.notifs ++ [Notif.queuedAck it.chatId (s.queue.length + 1)]).filter
          (fun n => isResultNotif n)
        = (s.processedOrder.map (fun p => itemResultNotifs p.1 p.2)).flatten
      rw [List.filter_append, h2]
      simp [isResultNotif]
  | enqCheck =>
    simp only [stepEv, handle_media_check]
    split <;> exact ⟨h1, h2⟩
  | runTask =>
    simp only [stepEv, process_queue_start]
    split
    · exact ⟨h1, h2⟩
    · split <;> exact ⟨h1, h2⟩
  | drain =>
    simp only [stepEv, process_queue_drain]
    split
    · exact ⟨h1, h2⟩
    · rcases hq : s.queue with _ | ⟨⟨it, b⟩, rest⟩
      · rw [hq] at h1
        refine ⟨?_, ?_⟩
        · show s.enqueuedOrder
            = s.processedOrder.map Prod.fst ++ List.map Prod.fst ([] : List (Item × Behavior))
          exact h1
        · show s.notifs.filter (fun n => isResultNotif n)
            = (s.processedOrder.map (fun p => itemResultNotifs p.1 p.2)).flatten
          exact h2
      · rw [hq] at h1
        refine ⟨?_, ?_⟩
        · show s.enqueuedOrder
            = (s.processedOrder ++ [(it, b)]).map Prod.fst ++ rest.map Prod.fst
          rw [h1]
          simp
        · show (s.notifs ++ (processItem s.stats it b).notifs).filter
              (fun n => isResultNotif n)
            = ((s.processedOrder ++ [(it, b)]).map
                (fun p => itemResultNotifs p.1 p.2)).flatten
          rw [List.filter_append, h2,
            processItem_notifs_indep s.stats initStats it b]
          simp [itemResultNotifs]
  | statsCmd =>
    refine ⟨h1, ?_⟩
    show (s.notifs ++ [Notif.statsReport s.stats.total_uploads s.stats.successful_uploads
        s.stats.failed_uploads s.stats.total_size_mb (successRate s.stats)
        s.queue.length]).filter (fun n => isResultNotif n)
      = (s.processedOrder.map (fun p => itemResultNotifs p.1 p.2)).flatten
    rw [List.filter_append, h2]
    simp [isResultNotif]
  | clearCmd uid => exact absurd rfl (he uid)

theorem initSys_orderInv : OrderInv initSys := ⟨rfl, rfl⟩

theorem foldl_orderInv (evs : List Ev)
    (h : ∀ ev ∈ evs, ∀ uid : Int, ev ≠ Ev.clearCmd uid) :
    ∀ s : Sys, OrderInv s → OrderInv (evs.foldl stepEv s) := by
  induction evs with
  | nil => intro s hs; exact hs
  | cons e evs ih =>
    intro s hs
    exact ih (fun ev hev uid => h ev (List.mem_cons_of_mem _ hev) uid) _
      (stepEv_orderInv s e (fun uid => h e (List.mem_cons_self _ _) uid) hs)

end Ordering

/-- Claim C4: FIFO processing and reporting.  For every event sequence made
of enqueues and processor activity (no queue clearing), the sequence of
dequeued items is a prefix of the enqueue sequence — items are dequeued in
exactly arrival order, none skipped, none reordered — and the result
notifications delivered so far are exactly those of the dequeued items, one
per item in that same order (an item contributes none only when the
error-handler notification for it raised, which also stops the loop). -/
theorem spec_c4 (evs : List Ev)
    (h : ∀ ev ∈ evs, ∀ uid : Int, ev ≠ Ev.clearCmd uid) :
    ((runEvs evs).processedOrder.map Prod.fst) <+: (runEvs evs).enqueuedOrder
    ∧ (runEvs evs).notifs.filter (fun n => isResultNotif n)
        = ((runEvs evs).processedOrder.map (fun p => itemResultNotifs p.1 p.2)).flatten := by
  obtain ⟨h1, h2⟩ := foldl_orderInv evs h initSys initSys_orderInv
  exact ⟨⟨(runEvs evs).queue.map Prod.fst, h1.symm⟩, h2⟩

/-- Witness for C4: a concrete clear-free trace with two enqueued items of
which one has been processed; the processed prefix and its single result
notification are checked by evaluation. -/
theorem spec_c4_witness :
    (∀ ev ∈ [Ev.enqAppend itA bTypedFail, Ev.enqAppend itB bTypedFail, Ev.enqCheck,
        Ev.runTask, Ev.drain], ∀ uid : Int, ev ≠ Ev.clearCmd uid)
    ∧ ((runEvs [Ev.enqAppend itA bTypedFail, Ev.enqAppend itB bTypedFail, Ev.enqCheck,
        Ev.runTask, Ev.drain]).processedOrder.map Prod.fst)
        <+: (runEvs [Ev.enqAppend itA bTypedFail, Ev.enqAppend itB bTypedFail, Ev.enqCheck,
        Ev.runTask, Ev.drain]).enqueuedOrder
    ∧ (runEvs [Ev.enqAppend itA bTypedFail, Ev.enqAppend itB bTypedFail, Ev.enqCheck,
        Ev.runTask, Ev.drain]).notifs.filter (fun n => isResultNotif n)
        = ((runEvs [Ev.enqAppend itA bTypedFail, Ev.enqAppend itB bTypedFail, Ev.enqCheck,
        Ev.runTask, Ev.drain]).processedOrder.map
            (fun p => itemResultNotifs p.1 p.2)).flatten := by
  have h : ∀ ev ∈ [Ev.enqAppend itA bTypedFail, Ev.enqAppend itB bTypedFail, Ev.enqCheck,
      Ev.runTask, Ev.drain], ∀ uid : Int, ev ≠ Ev.clearCmd uid := by
    intro ev hev uid heq
    subst heq
    simp at hev
  exact ⟨h, (spec_c4 _ h).1, (spec_c4 _ h).2⟩

/-- Witness for C1 at the concrete trace enqueue-check-start: the processor
is draining there, and a further enqueue only appends. -/
theorem spec_c1_witness :
    (runEvs [Ev.enqAppend itA bTypedFail, Ev.enqCheck, Ev.runTask]).isProcessing = true
    ∧ stepEv (runEvs [Ev.enqAppend itA bTypedFail, Ev.enqCheck, Ev.runTask]) Ev.enqCheck
        = runEvs [Ev.enqAppend itA bTypedFail, Ev.enqCheck, Ev.runTask]
    ∧ (stepEv (runEvs [Ev.enqAppend itA bTypedFail, Ev.enqCheck, Ev.runTask])
        (Ev.enqAppend itB bTypedFail)).activeLoops
        = (runEvs [Ev.enqAppend itA bTypedFail, Ev.enqCheck, Ev.runTask]).activeLoops :=
  ⟨by decide,
   ((spec_c1 [Ev.enqAppend itA bTypedFail, Ev.enqCheck, Ev.runTask]).2.1 (by decide)).1,
   (((spec_c1 [Ev.enqAppend itA bTypedFail, Ev.enqCheck, Ev.runTask]).2.1 (by decide)).2
      itB bTypedFail).1⟩

section Abort

theorem processItem_aborted_iff (s : Stats) (it : Item) (b : Behavior) :
    (processItem s it b).aborted = (raisesDuringItem b && b.errorNotify.isSome) := by
  obtain ⟨sn, f, u, o, en⟩ := b
  cases sn <;> cases f <;> cases u <;> cases o <;> cases en <;> rfl

/-- From a dead-coroutine state — `is_processing` still set but no drain
loop alive — every event leaves the system dead: nothing is ever processed
again, no loop ever starts, and the flag never clears. -/
theorem stepEv_stuck (s : Sys) (e : Ev)
    (hip : s.isProcessing = true) (ha : s.activeLoops = 0) :
    (stepEv s e).isProcessing = true ∧ (stepEv s e).activeLoops = 0
    ∧ (stepEv s e).loopStarts = s.loopStarts
    ∧ (stepEv s e).processedOrder = s.processedOrder := by
  cases e with
  | enqAppend it b => exact ⟨hip, ha, rfl, rfl⟩
  | enqCheck =>
    simp only [stepEv, handle_media_check]
    split <;> exact ⟨hip, ha, rfl, rfl⟩
  | runTask =>
    simp only [stepEv, process_queue_start]
    split
    all_goals exact ⟨hip, ha, rfl, rfl⟩
  | drain =>
    simp only [stepEv, process_queue_drain]
    rw [if_pos ha]
    exact ⟨hip, ha, rfl, rfl⟩
  | statsCmd => exact ⟨hip, ha, rfl, rfl⟩
  | clearCmd uid =>
    simp only [stepEv, clear_queue]
    split <;> exact ⟨hip, ha, rfl, rfl⟩

theorem foldl_stuck (evs : List Ev) :
    ∀ s : Sys, s.isProcessing = true → s.activeLoops = 0 →
      (evs.foldl stepEv s).isProcessing = true
      ∧ (evs.foldl stepEv s).activeLoops = 0
      ∧ (evs.foldl stepEv s).loopStarts = s.loopStarts
      ∧ (evs.foldl stepEv s).processedOrder = s.processedOrder := by
  induction evs with
  | nil => intro s h1 h2; exact ⟨h1, h2, rfl, rfl⟩
  | cons e evs ih =>
    intro s h1 h2
    obtain ⟨a1, a2, a3, a4⟩ := stepEv_stuck s e h1 h2
    obtain ⟨b1, b2, b3, b4⟩ := ih (stepEv s e) a1 a2
    refine ⟨b1, b2, ?_, ?_⟩
    · show (List.foldl stepEv (stepEv s e) evs).loopStarts = s.loopStarts
      rw [b3, a3]
    · show (List.foldl stepEv (stepEv s e) evs).processedOrder = s.processedOrder
      rw [b4, a4]

/-- The drain step on a non-empty queue whose head's processing aborts:
the coroutine dies, the loop count drops, `is_processing` stays set. -/
theorem process_queue_drain_abort (s : Sys) (it : Item) (b : Behavior)
    (rest : List (Item × Behavior))
    (ha : s.activeLoops ≠ 0) (hq : s.queue = (it, b) :: rest)
    (hab : (processItem s.stats it b).aborted = true) :
    process_queue_drain s
      = { s with queue := rest, stats := (processItem s.stats it b).stats,
                 notifs := s.notifs ++ (processItem s.stats it b).notifs,
                 processedOrder := s.processedOrder ++ [(it, b)],
                 activeLoops := s.activeLoops - 1 } := by
  unfold process_queue_drain
  rw [if_neg ha, hq]
  simp [hab]

/-- The drain step on a non-empty queue whose head's processing completes
(no escaped exception): the loop survives and moves to the next item. -/
theorem process_queue_drain_ok (s : Sys) (it : Item) (b : Behavior)
    (rest : List (Item × Behavior))
    (ha : s.activeLoops ≠ 0) (hq : s.queue = (it, b) :: rest)
    (hab : (processItem s.stats it b).aborted = false) :
    process_queue_drain s
      = { s with queue := rest, stats := (processItem s.stats it b).stats,
                 notifs := s.notifs ++ (processItem s.stats it b).notifs,
                 processedOrder := s.processedOrder ++ [(it, b)] } := by
  unfold process_queue_drain
  rw [if_neg ha, hq]
  simp [hab]

end Abort

/-- Claim C7: if, while handling an item, control is in the `except`
handler (some step of the item raised) and the handler's own
`send_message` raises, then the drain step kills `process_queue` without
resetting `is_processing`; from then on, whatever events occur — further
enqueues, `handle_media` checks, task starts, drain attempts — the flag
stays `True`, no drain loop ever starts again, and no further item is ever
processed. -/
theorem spec_c7 (s : Sys) (it : Item) (b : Behavior)
    (rest : List (Item × Behavior)) (e : String)
    (hq : s.queue = (it, b) :: rest)
    (ha : s.activeLoops = 1)
    (hip : s.isProcessing = true)
    (hr : raisesDuringItem b = true)
    (he : b.errorNotify = some e) :
    (stepEv s Ev.drain).isProcessing = true
    ∧ (stepEv s Ev.drain).activeLoops = 0
    ∧ ∀ evs : List Ev,
        (evs.foldl stepEv (stepEv s Ev.drain)).isProcessing = true
        ∧ (evs.foldl stepEv (stepEv s Ev.drain)).loopStarts
            = (stepEv s Ev.drain).loopStarts
        ∧ (evs.foldl stepEv (stepEv s Ev.drain)).processedOrder
            = (stepEv s Ev.drain).processedOrder := by
  have hab : (processItem s.stats it b).aborted = true := by
    rw [processItem_aborted_iff, hr, he]
    rfl
  have hd : stepEv s Ev.drain
      = { s with queue := rest, stats := (processItem s.stats it b).stats,
                 notifs := s.notifs ++ (processItem s.stats it b).notifs,
                 processedOrder := s.processedOrder ++ [(it, b)],
                 activeLoops := s.activeLoops - 1 } :=
    process_queue_drain_abort s it b rest (by rw [ha]; exact Nat.one_ne_zero) hq hab
  have hip' : (stepEv s Ev.drain).isProcessing = true := by rw [hd]; exact hip
  have ha' : (stepEv s Ev.drain).activeLoops = 0 := by rw [hd]; simp [ha]
  refine ⟨hip', ha', fun evs => ?_⟩
  obtain ⟨b1, b2, b3, b4⟩ := foldl_stuck evs (stepEv s Ev.drain) hip' ha'
  exact ⟨b1, b3, b4⟩

/-- Witness for C7: a concrete trace reaches a state whose head item's
"started" notification raises and whose error-handler notification raises
too; after the fatal drain step the flag is stuck and a later enqueued item
is never processed. -/
theorem spec_c7_witness :
    (runEvs [Ev.enqAppend itA bDoubleRaise, Ev.enqAppend itB bTypedFail, Ev.enqCheck,
        Ev.runTask]).queue = [(itA, bDoubleRaise), (itB, bTypedFail)]
    ∧ (runEvs [Ev.enqAppend itA bDoubleRaise, Ev.enqAppend itB bTypedFail, Ev.enqCheck,
        Ev.runTask]).activeLoops = 1
    ∧ (stepEv (runEvs [Ev.enqAppend itA bDoubleRaise, Ev.enqAppend itB bTypedFail,
        Ev.enqCheck, Ev.runTask]) Ev.drain).isProcessing = true
    ∧ (stepEv (runEvs [Ev.enqAppend itA bDoubleRaise, Ev.enqAppend itB bTypedFail,
        Ev.enqCheck, Ev.runTask]) Ev.drain).activeLoops = 0
    ∧ ([Ev.enqAppend itC bTypedFail, Ev.enqCheck, Ev.runTask, Ev.drain].foldl stepEv
        (stepEv (runEvs [Ev.enqAppend itA bDoubleRaise, Ev.enqAppend itB bTypedFail,
          Ev.enqCheck, Ev.runTask]) Ev.drain)).isProcessing = true := by
  have h := spec_c7 (runEvs [Ev.enqAppend itA bDoubleRaise, Ev.enqAppend itB bTypedFail,
      Ev.enqCheck, Ev.runTask]) itA bDoubleRaise [(itB, bTypedFail)] "flood wait"
      (by decide) (by decide) (by decide) (by decide) (by decide)
  exact ⟨by decide, by decide, h.1, h.2.1,
    (h.2.2 [Ev.enqAppend itC bTypedFail, Ev.enqCheck, Ev.runTask, Ev.drain]).1⟩

/-- Counterexample to C3 as stated: item A's "started" notification raises
and the error-handler notification raises as well; the drain loop
terminates with item B still queued (three further drain opportunities
change nothing) and no failure notification is ever delivered for A. -/
theorem spec_c3_cex :
    (runEvs [Ev.enqAppend itA bDoubleRaise, Ev.enqAppend itB bTypedFail, Ev.enqCheck,
        Ev.runTask, Ev.drain, Ev.drain, Ev.drain]).processedOrder = [(itA, bDoubleRaise)]
    ∧ (runEvs [Ev.enqAppend itA bDoubleRaise, Ev.enqAppend itB bTypedFail, Ev.enqCheck,
        Ev.runTask, Ev.drain, Ev.drain, Ev.drain]).queue = [(itB, bTypedFail)]
    ∧ (runEvs [Ev.enqAppend itA bDoubleRaise, Ev.enqAppend itB bTypedFail, Ev.enqCheck,
        Ev.runTask, Ev.drain, Ev.drain, Ev.drain]).activeLoops = 0
    ∧ (runEvs [Ev.enqAppend itA bDoubleRaise, Ev.enqAppend itB bTypedFail, Ev.enqCheck,
        Ev.runTask, Ev.drain, Ev.drain, Ev.drain]).notifs.filter
          (fun n => isResultNotif n) = [] := by
  decide

section Clean

/-- Invariant under "error-handler notifications never raise": every queued
behaviour is clean, and every loop start is balanced by either a normal
empty-queue exit or a still-active loop — no drain loop has died. -/
def CleanInv (s : Sys) : Prop :=
  (∀ p ∈ s.queue, (Prod.snd p).errorNotify = none)
  ∧ s.loopStarts = s.loopEnds + s.activeLoops

theorem stepEv_cleanInv (s : Sys) (e : Ev)
    (he : ∀ it b, e = Ev.enqAppend it b → b.errorNotify = none)
    (h : CleanInv s) : CleanInv (stepEv s e) := by
  obtain ⟨h1, h2⟩ := h
  cases e with
  | enqAppend it b =>
    refine ⟨?_, h2⟩
    intro p hp
    rcases List.mem_append.mp hp with hmem | hmem
    · exact h1 p hmem
    · rcases List.mem_singleton.mp hmem with rfl
      exact he it b rfl
  | enqCheck =>
    simp only [stepEv, handle_media_check]
    split <;> exact ⟨h1, h2⟩
  | runTask =>
    simp only [stepEv, process_queue_start]
    split
    · exact ⟨h1, h2⟩
    · split
      · exact ⟨h1, h2⟩
      · exact ⟨h1, by show s.loopStarts + 1 = s.loopEnds + (s.activeLoops + 1); omega⟩
  | drain =>
    simp only [stepEv, process_queue_drain]
    split
    · exact ⟨h1, h2⟩
    · rename_i ha
      rcases hq : s.queue with _ | ⟨⟨it, b⟩, rest⟩
      · refine ⟨fun p hp => absurd hp (List.not_mem_nil p), ?_⟩
        show s.loopStarts = s.loopEnds + 1 + (s.activeLoops - 1)
        omega
      · rw [hq] at h1
        have hb : b.errorNotify = none := h1 (it, b) (List.mem_cons_self _ _)
        have hab : (processItem s.stats it b).aborted = false := by
          rw [processItem_aborted_iff, hb]
          simp
        refine ⟨fun p hp => h1 p (List.mem_cons_of_mem _ hp), ?_⟩
        show s.loopStarts = s.loopEnds +
          (if (processItem s.stats it b).aborted = true then s.activeLoops - 1
           else s.activeLoops)
        rw [hab]
        simpa using h2
  | statsCmd => exact ⟨h1, h2⟩
  | clearCmd uid =>
    simp only [stepEv, clear_queue]
    split
    · exact ⟨fun p hp => absurd hp (List.not_mem_nil p), h2⟩
    · exact ⟨h1, h2⟩

theorem foldl_cleanInv (evs : List Ev)
    (h : ∀ it b, Ev.enqAppend it b ∈ evs → b.errorNotify = none) :
    ∀ s : Sys, CleanInv s → CleanInv (evs.foldl stepEv s) := by
  induction evs with
  | nil => intro s hs; exact hs
  | cons e evs ih =>
    intro s hs
    refine ih (fun it b hmem => h it b (List.mem_cons_of_mem _ hmem)) _
      (stepEv_cleanInv s e (fun it b heq => h it b ?_) hs)
    rw [← heq]
    exact List.mem_cons_self _ _

end Clean

/-- Claim C3 as amended: for every item whose processing raises anywhere in
the `try` block, the handler records the failure (`failed_uploads` grows)
and, provided the handler's own failure notification does not raise,
delivers an error message to the item's conversation and lets the loop
continue (no abort); moreover, over any run in which every enqueued
behaviour has a non-raising error-handler notification, every drain-loop
start is matched by a normal empty-queue exit or a still-active loop — the
drain loop never terminates except on an empty queue. -/
theorem spec_c3_amended :
    (∀ (st : Stats) (it : Item) (b : Behavior),
        raisesDuringItem b = true → b.errorNotify = none →
        (processItem st it b).aborted = false
        ∧ st.failed_uploads + 1 ≤ (processItem st it b).stats.failed_uploads
        ∧ ∃ e, Notif.errorMsg it.chatId it.messageId e ∈ (processItem st it b).notifs)
    ∧ ∀ evs : List Ev,
        (∀ it b, Ev.enqAppend it b ∈ evs → b.errorNotify = none) →
        (runEvs evs).loopStarts = (runEvs evs).loopEnds + (runEvs evs).activeLoops := by
  constructor
  · intro st it b hr he
    obtain ⟨sn, f, u, o, en⟩ := b
    simp only at he
    subst he
    cases sn with
    | some e => exact ⟨rfl, le_refl _, ⟨e, by simp [processItem, exceptHandler]⟩⟩
    | none =>
      cases f with
      | some e => exact ⟨rfl, le_refl _, ⟨e, by simp [processItem, exceptHandler]⟩⟩
      | none =>
        cases o with
        | some e =>
          cases u with
          | success name link size =>
            exact ⟨rfl, by simp [processItem, exceptHandler],
              ⟨e, by simp [processItem, exceptHandler]⟩⟩
          | failure err =>
            exact ⟨rfl, by simp [processItem, exceptHandler],
              ⟨e, by simp [processItem, exceptHandler]⟩⟩
        | none => simp [raisesDuringItem] at hr
  · intro evs h
    exact (foldl_cleanInv evs h initSys
      ⟨fun p hp => absurd hp (List.not_mem_nil p), rfl⟩).2

/-- Witness for C3 as amended: a concrete raising-but-clean behaviour, and
a concrete clean trace in which one drain loop started and ended. -/
theorem spec_c3_amended_witness :
    raisesDuringItem bStartRaises = true
    ∧ bStartRaises.errorNotify = none
    ∧ ((processItem initStats itA bStartRaises).aborted = false
        ∧ initStats.failed_uploads + 1
            ≤ (processItem initStats itA bStartRaises).stats.failed_uploads
        ∧ ∃ e, Notif.errorMsg itA.chatId itA.messageId e
            ∈ (processItem initStats itA bStartRaises).notifs)
    ∧ (runEvs [Ev.enqAppend itA bStartRaises, Ev.enqCheck, Ev.runTask, Ev.drain,
        Ev.drain]).loopStarts
      = (runEvs [Ev.enqAppend itA bStartRaises, Ev.enqCheck, Ev.runTask, Ev.drain,
        Ev.drain]).loopEnds
        + (runEvs [Ev.enqAppend itA bStartRaises, Ev.enqCheck, Ev.runTask, Ev.drain,
        Ev.drain]).activeLoops := by
  refine ⟨by decide, by decide,
    spec_c3_amended.1 initStats itA bStartRaises (by decide) (by decide),
    spec_c3_amended.2 [Ev.enqAppend itA bStartRaises, Ev.enqCheck, Ev.runTask, Ev.drain,
      Ev.drain] ?_⟩
  intro it b hmem
  simp at hmem
  rw [hmem.2]
  rfl

/-- Claim C2 fails on the code: one enqueued item whose "started"
notification raises leaves the counters at `total_uploads = 0`,
`successful_uploads = 0`, `failed_uploads = 1` — the `except` handler
(line 279) increments `failed_uploads` without ever reaching the
`total_uploads` update (line 249), so `total_uploads ≠ successful_uploads +
failed_uploads` after the item is finished. -/
theorem spec_c2_bug :
    (runEvs [Ev.enqAppend itA bStartRaises, Ev.enqCheck, Ev.runTask,
        Ev.drain]).stats.total_uploads = 0
    ∧ (runEvs [Ev.enqAppend itA bStartRaises, Ev.enqCheck, Ev.runTask,
        Ev.drain]).stats.successful_uploads = 0
    ∧ (runEvs [Ev.enqAppend itA bStartRaises, Ev.enqCheck, Ev.runTask,
        Ev.drain]).stats.failed_uploads = 1
    ∧ (runEvs [Ev.enqAppend itA bStartRaises, Ev.enqCheck, Ev.runTask,
        Ev.drain]).stats.total_uploads
      ≠ (runEvs [Ev.enqAppend itA bStartRaises, Ev.enqCheck, Ev.runTask,
        Ev.drain]).stats.successful_uploads
        + (runEvs [Ev.enqAppend itA bStartRaises, Ev.enqCheck, Ev.runTask,
        Ev.drain]).stats.failed_uploads := by
  decide

/-- Counterexample to C5 as stated: when the "started" notification raises,
neither the source fetch (`get_file`/download, lines 235-237) nor the
Transfer Client (`gdrive.upload_file`, line 241) is invoked for that item —
the claim says both still take place. -/
theorem spec_c5_cex :
    (processItem initStats itA bStartRaises).fetchInvoked = false
    ∧ (processItem initStats itA bStartRaises).uploadInvoked = false := by
  decide

/-- Claim C5 as amended: a failure of the "started" notification aborts
that item's transfer attempt — the source fetch and the Transfer Client are
not invoked; instead the item takes the error path: `failed_uploads` is
incremented (the other counters untouched) and, when the error-handler
notification itself succeeds, the conversation receives the error message
and the loop is not aborted. -/
theorem spec_c5_amended :
    ∀ (st : Stats) (it : Item) (e : String) (f : Option String)
      (u : UploadResult) (o en : Option String),
      (processItem st it ⟨some e, f, u, o, en⟩).fetchInvoked = false
      ∧ (processItem st it ⟨some e, f, u, o, en⟩).uploadInvoked = false
      ∧ (processItem st it ⟨some e, f, u, o, en⟩).stats.failed_uploads
          = st.failed_uploads + 1
      ∧ (processItem st it ⟨some e, f, u, o, en⟩).stats.total_uploads
          = st.total_uploads
      ∧ (processItem st it ⟨some e, f, u, o, en⟩).stats.successful_uploads
          = st.successful_uploads
      ∧ (processItem st it ⟨some e, f, u, o, none⟩).aborted = false
      ∧ (processItem st it ⟨some e, f, u, o, none⟩).notifs
          = [Notif.errorMsg it.chatId it.messageId e] := by
  intro st it e f u o en
  cases en <;> simp [processItem, exceptHandler]

/-- Counterexample to C6 as stated: item A's fetch raises and the
error-handler notification raises as well; item B, enqueued right behind
it, is never processed (three further drain opportunities change nothing),
refuting "the next queued item is still processed". -/
theorem spec_c6_cex :
    (processItem initStats itA bFetchThenNotifyRaise).uploadInvoked = false
    ∧ (runEvs [Ev.enqAppend itA bFetchThenNotifyRaise, Ev.enqAppend itB bTypedFail,
        Ev.enqCheck, Ev.runTask, Ev.drain, Ev.drain, Ev.drain]).processedOrder
      = [(itA, bFetchThenNotifyRaise)]
    ∧ (runEvs [Ev.enqAppend itA bFetchThenNotifyRaise, Ev.enqAppend itB bTypedFail,
        Ev.enqCheck, Ev.runTask, Ev.drain, Ev.drain, Ev.drain]).queue
      = [(itB, bTypedFail)] := by
  decide

/-- Claim C6 as amended: for every item whose source fetch fails, the
Transfer Client is never invoked for that item, the failure is recorded
(`failed_uploads` incremented; `total_uploads` untouched) and the fetch
error's reason is what the conversation is notified with; the item is not
retried or requeued, and — provided the error-handler notification does not
itself raise — the drain loop survives the item and the next queued item is
processed by the following drain step. -/
theorem spec_c6_amended :
    ∀ (st : Stats) (it : Item) (e : String) (u : UploadResult) (o en : Option String),
      (processItem st it ⟨none, some e, u, o, en⟩).uploadInvoked = false
      ∧ (processItem st it ⟨none, some e, u, o, en⟩).fetchInvoked = true
      ∧ (processItem st it ⟨none, some e, u, o, en⟩).stats.failed_uploads
          = st.failed_uploads + 1
      ∧ (processItem st it ⟨none, some e, u, o, en⟩).stats.total_uploads
          = st.total_uploads
      ∧ (processItem st it ⟨none, some e, u, o, none⟩).aborted = false
      ∧ (processItem st it ⟨none, some e, u, o, none⟩).notifs
          = [Notif.started it.chatId it.messageId it.filename,
             Notif.errorMsg it.chatId it.messageId e]
      ∧ ∀ (q : List (Item × Behavior)) (ip : Bool) (pend : Nat) (stt : Stats)
          (ns : List Notif) (eo : List Item) (po : List (Item × Behavior))
          (ls le : Nat) (it2 : Item) (b2 : Behavior),
          (stepEv ⟨(it, ⟨none, some e, u, o, none⟩) :: (it2, b2) :: q, ip, pend, 1,
              stt, ns, eo, po, ls, le⟩ Ev.drain).queue = (it2, b2) :: q
          ∧ (stepEv ⟨(it, ⟨none, some e, u, o, none⟩) :: (it2, b2) :: q, ip, pend, 1,
              stt, ns, eo, po, ls, le⟩ Ev.drain).activeLoops = 1
          ∧ (stepEv (stepEv ⟨(it, ⟨none, some e, u, o, none⟩) :: (it2, b2) :: q, ip,
              pend, 1, stt, ns, eo, po, ls, le⟩ Ev.drain) Ev.drain).processedOrder
            = po ++ [(it, ⟨none, some e, u, o, none⟩), (it2, b2)] := by
  intro st it e u o en
  refine ⟨?_, ?_, ?_, ?_, ?_, ?_, ?_⟩
  · cases en <;> simp [processItem, exceptHandler]
  · cases en <;> simp [processItem, exceptHandler]
  · cases en <;> simp [processItem, exceptHandler]
  · cases en <;> simp [processItem, exceptHandler]
  · simp [processItem, exceptHandler]
  · simp [processItem, exceptHandler]
  · intro q ip pend stt ns eo po ls le it2 b2
    refine ⟨?_, ?_, ?_⟩
    · simp [stepEv, process_queue_drain, processItem, exceptHandler]
    · simp [stepEv, process_queue_drain, processItem, exceptHandler]
    · simp [stepEv, process_queue_drain, processItem, exceptHandler]

/-- Counterexample to C8 as stated: a successful transfer of a
1,000,000-byte file adds `1000000 / (1024*1024) = 15625/16384 ≈ 0.9537`
megabytes to `total_size_mb` (line 253 divides by `1024*1024`), not the
`sizeBytes/1e6 = 1` megabyte the claim prescribes. -/
theorem spec_c8_cex :
    (processItem initStats itA ⟨none, none, UploadResult.success "a.txt" "drive-link"
        1000000, none, none⟩).stats.total_size_mb = (15625 : ℚ) / 16384
    ∧ (processItem initStats itA ⟨none, none, UploadResult.success "a.txt" "drive-link"
        1000000, none, none⟩).stats.total_size_mb ≠ (1000000 : ℚ) / 1000000 := by
  constructor
  · simp [processItem, initStats]
    norm_num
  · simp [processItem, initStats]
    norm_num

/-- Claim C8 as amended: a successful transfer adds exactly
`sizeBytes / (1024*1024)` megabytes to `total_size_mb` and increments
`successful_uploads` and `total_uploads` exactly once (whatever the outcome
notification does afterwards); an item for which the Transfer Client
returns a typed failure increments `failed_uploads` and `total_uploads`
exactly once when its failure notification succeeds — and `failed_uploads`
twice when that notification raises. -/
theorem spec_c8_amended :
    ∀ (st : Stats) (it : Item) (name link : String) (size : Nat)
      (err e2 : String) (o en : Option String),
      ((processItem st it ⟨none, none, UploadResult.success name link size, o,
          en⟩).stats.total_uploads = st.total_uploads + 1
       ∧ (processItem st it ⟨none, none, UploadResult.success name link size, o,
          en⟩).stats.successful_uploads = st.successful_uploads + 1
       ∧ (processItem st it ⟨none, none, UploadResult.success name link size, o,
          en⟩).stats.total_size_mb = st.total_size_mb + (size : ℚ) / (1024 * 1024))
      ∧ ((processItem st it ⟨none, none, UploadResult.failure err, none,
          en⟩).stats.total_uploads = st.total_uploads + 1
       ∧ (processItem st it ⟨none, none, UploadResult.failure err, none,
          en⟩).stats.failed_uploads = st.failed_uploads + 1
       ∧ (processItem st it ⟨none, none, UploadResult.failure err, none,
          en⟩).stats.successful_uploads = st.successful_uploads)
      ∧ (processItem st it ⟨none, none, UploadResult.failure err, some e2,
          en⟩).stats.failed_uploads = st.failed_uploads + 2 := by
  intro st it name link size err e2 o en
  cases o <;> cases en <;> simp [processItem, exceptHandler]

/-- Counterexample to C9 as stated: with one attempt and one success the
code's derived rate is `(1/1)*100 = 100` (line 312 multiplies by 100), not
`succeeded / totalAttempts = 1`. -/
theorem spec_c9_cex :
    successRate ⟨1, 1, 0, 0⟩ = 100 ∧ successRate ⟨1, 1, 0, 0⟩ ≠ (1 : ℚ) / 1 := by
  constructor
  · norm_num [successRate]
  · norm_num [successRate]

/-- Claim C9 as amended: the statistics snapshot reports the four counters
as they are plus a derived rate equal to
`(successful_uploads / total_uploads) * 100` — a percentage, not the bare
ratio — which is `0` when `total_uploads = 0`; and the snapshot event
mutates nothing: counters, queue, flag and loop state are unchanged, the
only effect is the appended report message. -/
theorem spec_c9_amended :
    ∀ st : Stats,
      (st.total_uploads = 0 → successRate st = 0)
      ∧ (st.total_uploads ≠ 0 →
          successRate st = ((st.successful_uploads : ℚ) / (st.total_uploads : ℚ)) * 100)
      ∧ ∀ s : Sys,
          (stepEv s Ev.statsCmd).stats = s.stats
          ∧ (stepEv s Ev.statsCmd).queue = s.queue
          ∧ (stepEv s Ev.statsCmd).isProcessing = s.isProcessing
          ∧ (stepEv s Ev.statsCmd).activeLoops = s.activeLoops
          ∧ (stepEv s Ev.statsCmd).pending = s.pending
          ∧ (stepEv s Ev.statsCmd).notifs = s.notifs ++
              [Notif.statsReport s.stats.total_uploads s.stats.successful_uploads
                s.stats.failed_uploads s.stats.total_size_mb (successRate s.stats)
                s.queue.length] := by
  intro st
  refine ⟨fun h => ?_, fun h => ?_, fun s => ⟨rfl, rfl, rfl, rfl, rfl, rfl⟩⟩
  · simp [successRate, h]
  · simp [successRate, Nat.pos_of_ne_zero h]

/-- Witness for C9 as amended, at the zero snapshot and at a snapshot with
two attempts and one success. -/
theorem spec_c9_witness :
    ((⟨0, 0, 0, 0⟩ : Stats).total_uploads = 0 ∧ successRate ⟨0, 0, 0, 0⟩ = 0)
    ∧ ((⟨2, 1, 1, 0⟩ : Stats).total_uploads ≠ 0
        ∧ successRate ⟨2, 1, 1, 0⟩
          = (((⟨2, 1, 1, 0⟩ : Stats).successful_uploads : ℚ)
              / ((⟨2, 1, 1, 0⟩ : Stats).total_uploads : ℚ)) * 100) :=
  ⟨⟨rfl, (spec_c9_amended ⟨0, 0, 0, 0⟩).1 rfl⟩,
   ⟨by decide, (spec_c9_amended ⟨2, 1, 1, 0⟩).2.1 (by decide)⟩⟩

/-- Claim C10: for an admin caller, `clear_queue` empties the queue and
reports the number of items removed (the queue length at call time),
touching neither the stats, nor the `is_processing` flag, nor the loop and
task state; on an already-empty queue it reports 0 and the whole state is
unchanged except for the reply message. -/
theorem spec_c10 :
    ∀ (s : Sys) (uid : Int), is_admin uid = true →
      (stepEv s (Ev.clearCmd uid)).queue = []
      ∧ (stepEv s (Ev.clearCmd uid)).notifs
          = s.notifs ++ [Notif.cleared s.queue.length]
      ∧ (stepEv s (Ev.clearCmd uid)).stats = s.stats
      ∧ (stepEv s (Ev.clearCmd uid)).isProcessing = s.isProcessing
      ∧ (stepEv s (Ev.clearCmd uid)).activeLoops = s.activeLoops
      ∧ (stepEv s (Ev.clearCmd uid)).pending = s.pending
      ∧ (s.queue = [] →
          stepEv s (Ev.clearCmd uid) = { s with notifs := s.notifs ++ [Notif.cleared 0] }) := by
  intro s uid h
  have hc : stepEv s (Ev.clearCmd uid)
      = { s with queue := [], notifs := s.notifs ++ [Notif.cleared s.queue.length] } := by
    simp [stepEv, clear_queue, h]
  refine ⟨by rw [hc], by rw [hc], by rw [hc], by rw [hc], by rw [hc], by rw [hc],
    fun hq => ?_⟩
  rw [hc, hq]
  rfl

/-- Witness for C10 with the configured admin id, at the initial (empty)
state. -/
theorem spec_c10_witness :
    is_admin 8285783077 = true
    ∧ (stepEv initSys (Ev.clearCmd 8285783077)).queue = []
    ∧ (stepEv initSys (Ev.clearCmd 8285783077)).notifs
        = initSys.notifs ++ [Notif.cleared initSys.queue.length] :=
  ⟨by decide, (spec_c10 initSys 8285783077 (by decide)).1,
    (spec_c10 initSys 8285783077 (by decide)).2.1⟩

end UploadBot
